import Mathlib

/-!
Verification of the session/progress model of the 2AFC survey tool.

The definitions below are a shallow embedding of the client-side study
script (the IIFE handling participant identity, pack assignment, the
response ledger, navigation gating, session persistence and submission
building).  JS strings are modelled as Lean `String`, JS numbers that the
code keeps in the 32-bit signed range as `Int` with explicit wrapping,
JSON values as the inductive `JVal`, `null`/`undefined` as `Option.none`,
and the browser's local storage as an association list passed explicitly.
-/

/-- Minimal model of a parsed JSON value (used for the pack manifest
payload and for the free-form question metadata that responses clone). -/
inductive JVal where
  | jstr (s : String)
  | jnum (n : Int)
  | jarr (xs : List JVal)
  | jobj (fields : List (String × JVal))
  | jnull
deriving Repr

/-- A raw JS value as read back from storage: an integer number, a
non-numeric value (modelled by its string), or `undefined`/`null`. -/
inductive JsVal where
  | num (n : Int)
  | str (s : String)
  | undef
deriving Repr, DecidableEq

/-- JS truthiness for the `JsVal` fragment (`0`, `""`, `undefined`,
`null` are falsy). -/
def jsTruthy : JsVal → Bool
  | .num n => n != 0
  | .str s => s != ""
  | .undef => false

/-- The JS idiom `v || 0`. -/
def jsOrZero (v : JsVal) : JsVal :=
  if jsTruthy v then v else .num 0

/-- The JS idiom `a || b` on possibly-absent strings: an absent or empty
string falls through to the second operand. -/
def jsStrOr (a b : Option String) : Option String :=
  match a with
  | some s => if s = "" then b else some s
  | none => b

/-- JS `String.prototype.trim`: drop whitespace from both ends.  (Defined
on the character list so that the kernel can evaluate it.) -/
def jsTrim (s : String) : String :=
  String.mk (((s.data.dropWhile Char.isWhitespace).reverse.dropWhile Char.isWhitespace).reverse)

/-- JS `String.prototype.toLowerCase`, character-wise lowering. -/
def jsToLower (s : String) : String :=
  String.mk (s.data.map Char.toLower)

/-- `getNameKey` from the source: `name?.trim().toLowerCase() || ''`
(the `|| ''` is the identity here since a trimmed-empty string is
already `""`). -/
def getNameKey (name : String) : String :=
  jsToLower (jsTrim name)

/-- Wrap an integer into the 32-bit signed range, the effect of the JS
`| 0` coercion (ToInt32). -/
def toInt32 (z : Int) : Int :=
  (z + 2 ^ 31) % 2 ^ 32 - 2 ^ 31

/-- `hashString` from the source: the polynomial rolling hash
`hash = (hash << 5) - hash + charCode; hash |= 0` over the characters of
the name.  `hash << 5` coerces to 32-bit before shifting, hence the inner
`toInt32 (hash * 32)`; character codes are taken from `Char.toNat`. -/
def hashString (value : String) : Int :=
  value.data.foldl (fun hash c => toInt32 (toInt32 (hash * 32) - hash + c.toNat)) 0

/-- The fixed fallback dataset name used when the manifest is empty. -/
def defaultPack : String := "questions_sample"

/-- `pickPackForName` from the source: empty manifest falls back to the
default dataset, otherwise the manifest entry at
`Math.abs(hashString(nameKey)) % manifest.length`. -/
def pickPackForName (manifest : List String) (nameKey : String) : String :=
  if h : manifest.length = 0 then defaultPack
  else
    manifest.get
      ⟨(hashString nameKey).natAbs % manifest.length,
       Nat.mod_lt _ (Nat.pos_of_ne_zero h)⟩

/-- Outcome of fetching `data/packs/manifest.json`: a network/HTTP/parse
failure (everything the `try` block turns into the empty manifest), or a
successfully parsed JSON payload. -/
inductive ManifestFetch where
  | fetchError
  | payload (v : JVal)

/-- `loadPackManifest` from the source: on any fetch error the manifest
degrades to `[]`; otherwise accept the payload if it is an array, else
its `packs` field if that is an array, else `[]`; keep only strings. -/
def loadPackManifest : ManifestFetch → List String
  | .fetchError => []
  | .payload v =>
    let packs : List JVal :=
      match v with
      | .jarr xs => xs
      | .jobj fields =>
        match fields.lookup "packs" with
        | some (.jarr xs) => xs
        | _ => []
      | _ => []
    packs.filterMap (fun item =>
      match item with
      | .jstr s => some s
      | _ => none)

/-- A question record, as consumed by `createResponsePayload`.  The
free-form metadata the source deep-copies (`meta`, `videoA`, `optionA`,
`field`, ...) is kept as raw JSON values; `none` stands for an absent
field. -/
structure Question where
  id : Option String
  fieldId : Option String
  fieldLabel : Option String
  field : Option JVal
  dataset : Option String
  axis : Option String
  axisDetail : Option String
  prompt : Option String
  targetLevel : Option String
  meta : Option JVal
  videoA : Option JVal
  videoB : Option JVal
  optionA : Option JVal
  optionB : Option JVal

/-- A response payload, mirroring the object literal built by
`createResponsePayload` (plus the `choice` / `skipped` / `skipReason`
fields supplied by the two call sites through `...extra`). -/
structure Response where
  questionId : String
  fieldId : Option String
  fieldLabel : Option String
  dataset : Option String
  axis : Option String
  axisDetail : Option String
  prompt : String
  targetLevel : Option String
  meta : Option JVal
  videoA : Option JVal
  videoB : Option JVal
  optionA : Option JVal
  optionB : Option JVal
  timestamp : String
  choice : Option String
  skipped : Bool
  skipReason : Option String
  field : Option JVal

/-- Look a string field up inside an optional JSON object (the source's
`question.field?.id` / `question.meta?.targetLevel` optional chains). -/
def jGetStr (v : Option JVal) (key : String) : Option String :=
  match v with
  | some (.jobj fields) =>
    match fields.lookup key with
    | some (.jstr s) => some s
    | _ => none
  | _ => none

/-- `createResponsePayload` from the source.  `clone` (a JSON
round-trip) is the identity on our `JVal` model, with `undefined`/`null`
both mapped to `null` (`Option.none`).  The wall-clock timestamp is
passed in explicitly.  The `extra` spread is passed as the explicit
`choice` / `skipped` / `skipReason` arguments (`skipped` is absent, i.e.
false, for a plain choice). -/
def createResponsePayload (idx : Nat) (q : Question) (now : String)
    (choice : Option String) (skipped : Bool) (skipReason : Option String) : Response :=
  { questionId :=
      match jsStrOr q.id none with
      | some s => s
      | none => "question_" ++ toString (idx + 1)
    fieldId := jsStrOr q.fieldId (jGetStr q.field "id")
    fieldLabel := jsStrOr q.fieldLabel (jGetStr q.field "label")
    dataset := q.dataset
    axis := q.axis
    axisDetail := q.axisDetail
    prompt := (jsStrOr q.prompt (some "")).getD ""
    targetLevel := jsStrOr q.targetLevel (jGetStr q.meta "targetLevel")
    meta := q.meta
    videoA := q.videoA
    videoB := q.videoB
    optionA := q.optionA
    optionB := q.optionB
    timestamp := now
    choice := choice
    skipped := skipped
    skipReason := skipReason
    field := q.field }

/-- The mutable working state of the page (the `state` object), with the
DOM references dropped and the autosave timer / in-flight request handle
made external. -/
structure StudyState where
  questions : List Question
  index : Nat
  responses : List (Option Response)
  questionSet : Option String
  loadedQuestionSet : Option String
  sessionKey : Option String
  participantName : String
  submissionMode : String
  isPreview : Bool
  isNavigating : Bool

/-- `isParticipantValid` from the source: always true in mturk mode,
otherwise the trimmed display name must be non-empty. -/
def isParticipantValid (s : StudyState) : Bool :=
  if s.submissionMode = "mturk" then true
  else jsTrim s.participantName != ""

/-- `getBlockingReason` from the source. -/
def getBlockingReason (s : StudyState) : Option String :=
  if s.submissionMode = "mturk" && s.isPreview then
    some "Accept the HIT to unlock the study interface."
  else if s.submissionMode != "mturk" && !isParticipantValid s then
    some "Enter your display name to begin."
  else none

/-- Whether the UI is in the locked state (`updateNavState` found a
blocking reason and called `setControlsLocked true`). -/
def blocked (s : StudyState) : Bool :=
  (getBlockingReason s).isSome

/-- Whether the current question has a ledger entry
(`Boolean(state.responses[state.index])`). -/
def answeredCurrent (s : StudyState) : Bool :=
  (s.responses.getD s.index none).isSome

/-- `state.index === total - 1`, computed over `Int` to match the JS
arithmetic when the question list is empty. -/
def onLastQuestion (s : StudyState) : Bool :=
  (s.index : Int) == (s.questions.length : Int) - 1

/-- `state.index >= state.questions.length - 1`, again over `Int`. -/
def atOrPastLast (s : StudyState) : Bool :=
  (s.index : Int) ≥ (s.questions.length : Int) - 1

/-- The `disabled` attribute `updateNavState` leaves on the Next button:
locked, or current question unanswered, or on the last question. -/
def nextButtonDisabled (s : StudyState) : Bool :=
  blocked s || !answeredCurrent s || onLastQuestion s

/-- The `disabled` attribute `updateNavState` leaves on the Back button:
locked, or already at the first question. -/
def backButtonDisabled (s : StudyState) : Bool :=
  blocked s || s.index == 0

/-- The `disabled` attribute `updateNavState` leaves on the Skip button:
locked, or current question already answered, or no questions. -/
def skipButtonDisabled (s : StudyState) : Bool :=
  blocked s || answeredCurrent s || s.questions.length == 0

/-- The index mutation performed by `renderQuestion`: dropped while the
re-entrancy cooldown is active, otherwise `state.index = index` (the
index is written before the question lookup, so it changes even for an
out-of-range target). -/
def renderQuestionIdx (s : StudyState) (idx : Nat) : StudyState :=
  if s.isNavigating then s else { s with index := idx }

/-- `goNext` from the source. -/
def goNext (s : StudyState) : StudyState :=
  if atOrPastLast s || s.isNavigating then s
  else renderQuestionIdx s (s.index + 1)

/-- `goBack` from the source. -/
def goBack (s : StudyState) : StudyState :=
  if s.index == 0 || s.isNavigating then s
  else renderQuestionIdx s (s.index - 1)

/-- A click on the Next button: the handler only runs when the button is
enabled, i.e. with the `disabled` state `updateNavState` computed from
the current state. -/
def clickNext (s : StudyState) : StudyState :=
  if nextButtonDisabled s then s else goNext s

/-- A click on the Back button. -/
def clickBack (s : StudyState) : StudyState :=
  if backButtonDisabled s then s else goBack s

/-- JS array element assignment `arr[i] = v`: in-place when `i` is in
range, otherwise the array grows, padding the gap with holes
(`undefined`, modelled as `none`). -/
def setResp (l : List (Option Response)) (i : Nat) (v : Option Response) : List (Option Response) :=
  if i < l.length then l.set i v
  else l ++ List.replicate (i - l.length) none ++ [v]

/-- `skipCurrentQuestion` from the source: bail out if there is no
current question or the Skip button is disabled; write a
`choice: null, skipped: true, skipReason: 'user'` response into the
current ledger slot; then stay put (re-evaluating gating) on the last
question and advance via `renderQuestion(index + 1)` otherwise. -/
def skipCurrentQuestion (s : StudyState) (now : String) : StudyState :=
  match s.questions[s.index]? with
  | none => s
  | some q =>
    if skipButtonDisabled s then s
    else
      let response := createResponsePayload s.index q now none true (some "user")
      let s' := { s with responses := setResp s.responses s.index (some response) }
      if atOrPastLast s' then s'
      else renderQuestionIdx s' (s'.index + 1)

/-- A Session Record, the per-participant entry `persistSession` writes
under `userStudy.sessions`.  `index` is kept as a raw JS value because a
record read back from storage may hold anything there. -/
structure SessionRecord where
  questionSet : Option String
  responses : List (Option Response)
  index : JsVal
  participantName : String
  updatedAt : String

/-- The durable local session store: the parsed `userStudy.sessions`
document, a mapping from normalized participant name to Session Record
(at most one entry per key). -/
def Store := List (String × SessionRecord)

/-- Object-key assignment `store[key] = record`: replaces the entry for
`key`, leaving every other key untouched. -/
def storeSet (store : Store) (key : String) (record : SessionRecord) : Store :=
  (key, record) :: List.eraseP (fun p => p.1 == key) store

/-- `getSessionRecord` from the source: `store?.[nameKey] || null`. -/
def getSessionRecord (store : Store) (nameKey : String) : Option SessionRecord :=
  List.lookup nameKey store

/-- `persistSession` from the source: a no-op without a session key
(or without local storage, which we model as the store simply not being
reachable); otherwise overwrite the record for the session key with the
current working state.  `(state.responses || []).map(r => r || null)` is
the identity on the `Option`-list model, and `state.index || 0` is the
identity on a natural-number index. -/
def persistSession (s : StudyState) (store : Store) (now : String) : Store :=
  match s.sessionKey with
  | none => store
  | some key =>
    storeSet store key
      { questionSet := s.questionSet
        responses := s.responses
        index := .num s.index
        participantName := s.participantName
        updatedAt := now }

/-- `alignResponses` from the source: a fresh null-filled array of the
dataset length, keeping every stored non-null response whose index is
still in range. -/
def alignResponses (rs : List (Option Response)) (total : Nat) : List (Option Response) :=
  (List.range total).map (fun i => rs.getD i none)

/-- The JS `Array.prototype.findIndex` for the predicate
`response => !response`, with `none` standing for the `-1` result. -/
def findFirstEmpty : List (Option Response) → Option Nat
  | [] => none
  | r :: rest =>
    if r.isNone then some 0
    else (findFirstEmpty rest).map (fun i => i + 1)

/-- `Number.isInteger(state.index) && state.index >= 0`, on the raw
JS-value model of the working index. -/
def validResumeIdx : JsVal → Bool
  | .num n => decide (0 ≤ n)
  | _ => false

/-- The tail of `determineResumeIndex`: the first unanswered slot if one
exists, else `Math.max(len - 1, 0)` (which the truncated `total - 1`
equals). -/
def resumeFallback (responses : List (Option Response)) (total : Nat) : Nat :=
  match findFirstEmpty responses with
  | some i => i
  | none => total - 1

/-- `determineResumeIndex` from the source: a recorded index that passes
`Number.isInteger(state.index) && state.index >= 0` is clamped with
`Math.min(index, Math.max(len - 1, 0))`; anything else falls through to
the first-unanswered / last-question logic. -/
def determineResumeIndex : JsVal → List (Option Response) → Nat → Nat
  | .num n, responses, total =>
    if 0 ≤ n then min n.toNat (total - 1) else resumeFallback responses total
  | _, responses, total => resumeFallback responses total

/-- The slice of working state that `applyStoredSession` rebuilds before
the dataset is (re)loaded.  The index is a raw JS value at this point:
the source stores `record.index || 0` straight into `state.index`. -/
structure RestoredWorking where
  questionSet : Option String
  responses : List (Option Response)
  indexVal : JsVal
  participantName : String

/-- `applyStoredSession` from the source (the state mutations; the
trailing render/load call is modelled by `loadQuestionsApply`).
`record.questionSet || state.questionSet || initialQuestionSet || null`
becomes an `Option` fall-through, and the participant name is only taken
from the record when truthy. -/
def applyStoredSession (initialQuestionSet : Option String) (w : RestoredWorking)
    (record : SessionRecord) : RestoredWorking :=
  { questionSet :=
      match record.questionSet with
      | some qs => if qs = "" then (w.questionSet.orElse (fun _ => initialQuestionSet)) else some qs
      | none => w.questionSet.orElse (fun _ => initialQuestionSet)
    responses := record.responses
    indexVal := jsOrZero record.index
    participantName :=
      if record.participantName = "" then w.participantName else record.participantName }

/-- The success path of `loadQuestions` after the dataset fetch, applied
to a restored working state: `alignResponses(payload.length)` followed by
`renderQuestion(determineResumeIndex())`, returning the ledger and the
index the page ends up on. -/
def loadQuestionsApply (w : RestoredWorking) (payload : List Question) :
    List (Option Response) × Nat :=
  let aligned := alignResponses w.responses payload.length
  (aligned, determineResumeIndex w.indexVal aligned payload.length)

/-- The Submission Payload built by `buildSubmissionPayload`. -/
structure SubmissionPayload where
  questionSet : String
  completedAt : String
  participantName : String
  responses : List Response
  totalQuestions : Nat

/-- `buildSubmissionPayload` from the source:
`state.questionSet || initialQuestionSet || 'questions_sample'`, the
timestamp of the call, the participant, the non-null ledger entries
(`state.responses.filter(Boolean)`), and the question count. -/
def buildSubmissionPayload (initialQuestionSet : Option String) (s : StudyState)
    (now : String) : SubmissionPayload :=
  { questionSet := ((jsStrOr s.questionSet initialQuestionSet).getD defaultPack)
    completedAt := now
    participantName := s.participantName
    responses := s.responses.filterMap (fun r => r)
    totalQuestions := s.questions.length }

/-- Character class of the regex `[a-z0-9]` used by the download slug. -/
def isSlugChar (c : Char) : Bool :=
  ('a' ≤ c && c ≤ 'z') || ('0' ≤ c && c ≤ '9')

/-- The regex replace `.replace(/[^a-z0-9]+/g, '_')`: each maximal run of
non-alphanumeric characters becomes a single underscore.  The Boolean
argument records whether the scanner is inside such a run (so that only
its first character emits the separator). -/
def collapseRuns : Bool → List Char → List Char
  | _, [] => []
  | inRun, c :: rest =>
    if isSlugChar c then c :: collapseRuns false rest
    else if inRun then collapseRuns true rest
    else '_' :: collapseRuns true rest

/-- The regex replace `.replace(/^_+|_+$/g, '')`: strip leading and
trailing underscores. -/
def trimSep (cs : List Char) : List Char :=
  (((cs.dropWhile (fun c => c == '_')).reverse).dropWhile (fun c => c == '_')).reverse

/-- The `nameSlug` computation inside `downloadResponses`:
`(name || 'participant').toLowerCase().replace(/[^a-z0-9]+/g, '_').replace(/^_+|_+$/g, '')`. -/
def nameSlug (name : String) : String :=
  let base := if name = "" then "participant" else name
  String.mk (trimSep (collapseRuns false (jsToLower base).data))

/-- The filename `downloadResponses` hands to the download link:
`responses_<nameSlug || 'participant'>.json`. -/
def downloadFilename (name : String) : String :=
  let slug := nameSlug name
  "responses_" ++ (if slug = "" then "participant" else slug) ++ ".json"

/-- The maximal runs of alphanumeric characters of a name, in order.
This is the specification-side reading of the §4.5 download-filename
contract: the slug is these runs joined by single separators. -/
def slugWords : List Char → List (List Char)
  | [] => []
  | c :: cs =>
    if isSlugChar c then
      match cs with
      | [] => [[c]]
      | c' :: _ =>
        if isSlugChar c' then
          (c :: (slugWords cs).headD []) :: (slugWords cs).tail
        else [c] :: slugWords cs
    else slugWords cs

/-- Modelled from the spec (§4.5 / §6): the slug of the download filename
is obtained from the lower-cased name (defaulted to "participant") by
joining its alphanumeric runs with single separators, an empty result
being replaced by the fixed default. -/
def slugSpec (name : String) : String :=
  let base := if name = "" then "participant" else name
  let joined := String.mk (List.intercalate ['_'] (slugWords (jsToLower base).data))
  if joined = "" then "participant" else joined

/-- Outcome of the `fetch` POST to the configured response endpoint: a
network error (the promise rejects) or a settled HTTP response with some
status code (`fetch` resolves for every status, 2xx or not). -/
inductive HttpResult where
  | networkError
  | response (status : Nat)

/-- `syncToEndpoint` from the source, as a function of the endpoint
configuration and the HTTP outcome: no endpoint means `false`; a network
error is caught and leaves `success = false`; any settled response —
regardless of status — sets `success = true`. -/
def syncToEndpoint (endpoint : Option String) (result : HttpResult) : Bool :=
  match endpoint with
  | none => false
  | some _ =>
    match result with
    | .networkError => false
    | .response _ => true

/-- The status line `sendResponses` leaves in the submission panel after
a manual send, as a function of the endpoint configuration and the HTTP
outcome of `syncToEndpoint`. -/
def sendResponsesMessage (endpoint : Option String) (result : HttpResult) : String :=
  match endpoint with
  | none => "No upload endpoint configured. Use the download button instead."
  | some _ =>
    if syncToEndpoint endpoint result then "Responses sent successfully!"
    else "Upload failed. Please try again or use the download option."

theorem toInt32_lb (z : Int) : -2 ^ 31 ≤ toInt32 z := by
  have h := Int.emod_nonneg (z + 2 ^ 31) (by norm_num : (2 ^ 32 : Int) ≠ 0)
  unfold toInt32
  omega

theorem toInt32_ub (z : Int) : toInt32 z < 2 ^ 31 := by
  have h := Int.emod_lt_of_pos (z + 2 ^ 31) (by norm_num : (0 : Int) < 2 ^ 32)
  unfold toInt32
  omega

theorem hashString_bounds (s : String) :
    -2 ^ 31 ≤ hashString s ∧ hashString s < 2 ^ 31 := by
  unfold hashString
  generalize s.data = l
  have main : ∀ (l : List Char) (init : Int), -2 ^ 31 ≤ init → init < 2 ^ 31 →
      -2 ^ 31 ≤ l.foldl (fun hash c => toInt32 (toInt32 (hash * 32) - hash + c.toNat)) init ∧
      l.foldl (fun hash c => toInt32 (toInt32 (hash * 32) - hash + c.toNat)) init < 2 ^ 31 := by
    intro l
    induction l with
    | nil => intro init h1 h2; exact ⟨h1, h2⟩
    | cons c rest ih =>
      intro init _ _
      exact ih _ (toInt32_lb _) (toInt32_ub _)
  exact main l 0 (by norm_num) (by norm_num)

/-- C1: for a non-empty manifest, `pickPackForName` computes the 32-bit
signed rolling hash of the name, takes its absolute value, reduces it
modulo the manifest length — an index always in range — and returns the
manifest entry at that index; as a pure function it is trivially stable
across repeated calls with the same name and manifest. -/
theorem pickPackForName_hash_mod (manifest : List String) (name : String)
    (h : manifest ≠ []) :
    -2 ^ 31 ≤ hashString name ∧ hashString name < 2 ^ 31 ∧
    (hashString name).natAbs % manifest.length < manifest.length ∧
    pickPackForName manifest name =
      manifest.getD ((hashString name).natAbs % manifest.length) defaultPack := by
  have hlen : manifest.length ≠ 0 := by
    simpa [List.length_eq_zero] using h
  have hpos : 0 < manifest.length := Nat.pos_of_ne_zero hlen
  have hlt : (hashString name).natAbs % manifest.length < manifest.length :=
    Nat.mod_lt _ hpos
  refine ⟨(hashString_bounds name).1, (hashString_bounds name).2, hlt, ?_⟩
  unfold pickPackForName
  rw [dif_neg hlen]
  rw [List.getD_eq_getElem _ _ hlt]
  rfl

theorem pickPackForName_hash_mod_witness :
    pickPackForName ["packA", "packB", "packC"] "alice" =
      (["packA", "packB", "packC"]).getD ((hashString "alice").natAbs % 3) defaultPack ∧
    (hashString "alice").natAbs % 3 < 3 :=
  ⟨(pickPackForName_hash_mod ["packA", "packB", "packC"] "alice" (by decide)).2.2.2,
   (pickPackForName_hash_mod ["packA", "packB", "packC"] "alice" (by decide)).2.2.1⟩

/-- C8: for every participant name the empty manifest yields the fixed
default dataset name (so the result does not depend on the name, i.e.
the hash-based selection is bypassed), and a missing or malformed
manifest file — fetch error, non-array payload without an array `packs`
field — degrades to the empty manifest. -/
theorem pickPackForName_empty_fallback :
    (∀ name : String, pickPackForName [] name = defaultPack) ∧
    defaultPack = "questions_sample" ∧
    loadPackManifest .fetchError = [] ∧
    loadPackManifest (.payload .jnull) = [] ∧
    (∀ n : Int, loadPackManifest (.payload (.jnum n)) = []) ∧
    loadPackManifest (.payload (.jobj [("other", .jnum 3)])) = [] ∧
    loadPackManifest (.payload (.jobj [("packs", .jstr "oops")])) = [] :=
  ⟨fun _ => rfl, rfl, rfl, rfl, fun _ => rfl, by decide, by decide⟩

/-- C6 (divergence witness): `syncToEndpoint` marks any settled HTTP
response as success — `fetch` only rejects on network errors, and the
code never inspects `response.ok` — so a manual send against an endpoint
answering HTTP 500 reports "Responses sent successfully!" instead of the
upload-failure message (the sibling implementation in assets/js/app.js
throws on `!response.ok`, which is the documented behaviour). -/
theorem syncToEndpoint_http500_reports_success :
    syncToEndpoint (some "https://collect.example/exec") (.response 500) = true ∧
    sendResponsesMessage (some "https://collect.example/exec") (.response 500) =
      "Responses sent successfully!" ∧
    syncToEndpoint (some "https://collect.example/exec") .networkError = false :=
  ⟨rfl, rfl, rfl⟩

/-- C10: `persistSession` is a pure no-op on the durable session store
whenever no session key has been resolved — the store is returned
entirely unchanged, with no entry of any participant written or
modified. -/
theorem persistSession_no_key_frame (s : StudyState) (store : Store) (now : String)
    (h : s.sessionKey = none) :
    persistSession s store now = store := by
  unfold persistSession
  rw [h]

/-- A minimal concrete question used by the concrete instantiations. -/
def sampleQuestion : Question :=
  { id := some "q1", fieldId := none, fieldLabel := none, field := none,
    dataset := some "packA", axis := some "realism", axisDetail := none,
    prompt := some "Which clip looks more physically plausible?",
    targetLevel := none, meta := none, videoA := none, videoB := none,
    optionA := none, optionB := none }

/-- A second concrete question (no explicit id, exercising the synthetic
questionId fallback). -/
def sampleQuestion2 : Question :=
  { id := none, fieldId := none, fieldLabel := none, field := none,
    dataset := some "packA", axis := some "control", axisDetail := none,
    prompt := some "Which clip follows the instruction better?",
    targetLevel := none, meta := none, videoA := none, videoB := none,
    optionA := none, optionB := none }

/-- A concrete recorded answer for `sampleQuestion`. -/
def sampleResponseA : Response :=
  createResponsePayload 0 sampleQuestion "2026-01-05T10:00:00.000Z" (some "A") false none

/-- A concrete recorded answer for `sampleQuestion2`. -/
def sampleResponseB : Response :=
  createResponsePayload 1 sampleQuestion2 "2026-01-05T10:01:00.000Z" (some "B") false none

/-- A concrete stored record for an unrelated participant. -/
def sampleRecord : SessionRecord :=
  { questionSet := some "packB", responses := [some sampleResponseA],
    index := .num 0, participantName := "bob", updatedAt := "2026-01-04T09:00:00.000Z" }

/-- A working state in which no participant identity has been resolved
(`sessionKey = none`). -/
def anonymousState : StudyState :=
  { questions := [sampleQuestion, sampleQuestion2], index := 0,
    responses := [none, none], questionSet := some "packA",
    loadedQuestionSet := some "packA", sessionKey := none,
    participantName := "", submissionMode := "local",
    isPreview := false, isNavigating := false }

theorem persistSession_no_key_frame_witness :
    persistSession anonymousState [("bob", sampleRecord)] "2026-01-05T11:00:00.000Z" =
      [("bob", sampleRecord)] :=
  persistSession_no_key_frame anonymousState [("bob", sampleRecord)] _ rfl

theorem filterMap_id_map_some (l : List (Option Response)) :
    (l.filterMap (fun r => r)).map some = l.filter (fun r => r.isSome) := by
  induction l with
  | nil => rfl
  | cons a t ih =>
    cases a with
    | none => simpa [List.filterMap_cons, List.filter_cons] using ih
    | some r => simpa [List.filterMap_cons, List.filter_cons] using ih

/-- C5: the Submission Builder is a pure function of the working state
apart from `completedAt`: its `responses` are exactly the non-empty
ledger slots in original order, `questionSet` / `participant` /
`totalQuestions` come from the state, and two calls over an unchanged
ledger agree on every field except `completedAt`, which is recomputed
from the time of each call. -/
theorem buildSubmissionPayload_pure (initialQuestionSet : Option String)
    (s : StudyState) (t1 t2 : String) :
    (buildSubmissionPayload initialQuestionSet s t1).responses =
      s.responses.filterMap (fun r => r) ∧
    ((buildSubmissionPayload initialQuestionSet s t1).responses).map some =
      s.responses.filter (fun r => r.isSome) ∧
    (buildSubmissionPayload initialQuestionSet s t1).totalQuestions = s.questions.length ∧
    (buildSubmissionPayload initialQuestionSet s t1).participantName = s.participantName ∧
    buildSubmissionPayload initialQuestionSet s t1 =
      { buildSubmissionPayload initialQuestionSet s t2 with completedAt := t1 } ∧
    (buildSubmissionPayload initialQuestionSet s t1).completedAt = t1 :=
  ⟨rfl, filterMap_id_map_some s.responses, rfl, rfl, rfl, rfl⟩

/-- C2: the forward "Save & Next" transition never moves from question i
to i+1 unless the ledger slot of question i is non-empty, while from any
non-blocked state with i > 0 (and outside the render cooldown) the Back
transition always moves to i-1, with no condition on the ledger. -/
theorem navigation_gating (s : StudyState) :
    ((clickNext s).index = s.index + 1 →
      (s.responses.getD s.index none).isSome = true) ∧
    (blocked s = false → s.isNavigating = false → 0 < s.index →
      (clickBack s).index = s.index - 1) := by
  constructor
  · intro h
    by_cases hd : nextButtonDisabled s = true
    · exfalso
      unfold clickNext at h
      rw [if_pos hd] at h
      omega
    · have hd' : nextButtonDisabled s = false := by
        revert hd; cases nextButtonDisabled s <;> simp
      have hans : answeredCurrent s = true := by
        unfold nextButtonDisabled at hd'
        rcases Bool.or_eq_false_iff.mp hd' with ⟨h1, _⟩
        rcases Bool.or_eq_false_iff.mp h1 with ⟨_, h2⟩
        revert h2; cases answeredCurrent s <;> simp
      exact hans
  · intro hb hn hi
    have hbd : backButtonDisabled s = false := by
      unfold backButtonDisabled
      rw [hb]
      simp
      omega
    unfold clickBack
    rw [if_neg (by rw [hbd]; exact Bool.false_ne_true)]
    unfold goBack
    have hz : (s.index == 0) = false := by
      simp
      omega
    rw [if_neg (by rw [hz, hn]; simp)]
    unfold renderQuestionIdx
    rw [if_neg (by rw [hn]; exact Bool.false_ne_true)]

/-- A concrete mid-study state: three questions, the current (second)
question answered, the first and third not. -/
def midStudyState : StudyState :=
  { questions := [sampleQuestion, sampleQuestion2, sampleQuestion], index := 1,
    responses := [none, some sampleResponseB, none], questionSet := some "packA",
    loadedQuestionSet := some "packA", sessionKey := some "alice",
    participantName := "Alice", submissionMode := "local",
    isPreview := false, isNavigating := false }

theorem navigation_gating_witness :
    (midStudyState.responses.getD midStudyState.index none).isSome = true ∧
    (clickBack midStudyState).index = 0 :=
  ⟨(navigation_gating midStudyState).1 rfl,
   (navigation_gating midStudyState).2 rfl rfl (by decide)⟩

theorem setResp_cons_succ (a : Option Response) (t : List (Option Response))
    (i : Nat) (v : Option Response) :
    setResp (a :: t) (i + 1) v = a :: setResp t i v := by
  unfold setResp
  by_cases h : i < t.length
  · rw [if_pos (by simpa using Nat.succ_lt_succ h), if_pos h]
    rfl
  · rw [if_neg (by simpa using fun hc => h (Nat.lt_of_succ_lt_succ hc)), if_neg h]
    simp [Nat.succ_sub_succ]

theorem replicate_append_getD (i : Nat) (v : Option Response) :
    (List.replicate i (none : Option Response) ++ [v]).getD i none = v := by
  induction i with
  | zero => rfl
  | succ k ih => simp only [List.replicate_succ, List.cons_append, List.getD_cons_succ]; exact ih

theorem setResp_getD (l : List (Option Response)) (i : Nat) (v : Option Response) :
    (setResp l i v).getD i none = v := by
  induction l generalizing i with
  | nil =>
    unfold setResp
    rw [if_neg (by simp)]
    simp only [List.nil_append, Nat.sub_zero]
    exact replicate_append_getD i v
  | cons a t ih =>
    cases i with
    | zero =>
      unfold setResp
      rw [if_pos (by simp)]
      rfl
    | succ k =>
      rw [setResp_cons_succ]
      simpa using ih k

/-- A concrete state on the first of two questions, unanswered — the
Skip button is enabled and the question is not the last one. -/
def firstOfTwoState : StudyState :=
  { questions := [sampleQuestion, sampleQuestion2], index := 0,
    responses := [none, none], questionSet := some "packA",
    loadedQuestionSet := some "packA", sessionKey := some "alice",
    participantName := "Alice", submissionMode := "local",
    isPreview := false, isNavigating := false }

/-- C7 (counterexample): skipping is not an in-place transition — on the
first of two questions, `skipCurrentQuestion` moves the current index
forward instead of leaving it unchanged. -/
theorem skipCurrentQuestion_not_in_place :
    ¬ ((skipCurrentQuestion firstOfTwoState "2026-01-05T10:02:00.000Z").index =
        firstOfTwoState.index) := by
  decide

theorem atOrPastLast_responses (s : StudyState) (rs : List (Option Response)) :
    atOrPastLast { s with responses := rs } = atOrPastLast s := rfl

/-- C7 (amended): for an enabled skip on question i, `skipCurrentQuestion`
writes `ledger[i]` with a response whose choice is null and whose skipped
flag is true (reason "user"); the index stays at i only when i is the
last question — otherwise the page advances to question i+1 (when the
render cooldown is inactive), the gating being re-evaluated from the new
state in both cases. -/
theorem skipCurrentQuestion_behavior (s : StudyState) (now : String) (q : Question)
    (hq : s.questions[s.index]? = some q)
    (hd : skipButtonDisabled s = false) :
    (skipCurrentQuestion s now).responses.getD s.index none =
      some (createResponsePayload s.index q now none true (some "user")) ∧
    (createResponsePayload s.index q now none true (some "user")).choice = none ∧
    (createResponsePayload s.index q now none true (some "user")).skipped = true ∧
    (atOrPastLast s = true → (skipCurrentQuestion s now).index = s.index) ∧
    (atOrPastLast s = false → s.isNavigating = false →
      (skipCurrentQuestion s now).index = s.index + 1) := by
  have key : skipCurrentQuestion s now =
      if atOrPastLast s then { s with responses := setResp s.responses s.index (some (createResponsePayload s.index q now none true (some "user"))) } else renderQuestionIdx { s with responses := setResp s.responses s.index (some (createResponsePayload s.index q now none true (some "user"))) } (s.index + 1) := by
    simp only [skipCurrentQuestion, hq, hd, Bool.false_eq_true, if_false,
      atOrPastLast_responses]
  rw [key]
  refine ⟨?_, rfl, rfl, ?_, ?_⟩
  · by_cases hlast : atOrPastLast s = true
    · rw [if_pos hlast]
      exact setResp_getD _ _ _
    · have hlast' : atOrPastLast s = false := by
        revert hlast; cases atOrPastLast s <;> simp
      rw [if_neg (by rw [hlast']; exact Bool.false_ne_true)]
      unfold renderQuestionIdx
      by_cases hnav : s.isNavigating = true
      · rw [if_pos hnav]
        exact setResp_getD _ _ _
      · rw [if_neg hnav]
        exact setResp_getD _ _ _
  · intro hlast
    rw [if_pos hlast]
  · intro hlast hnav
    rw [if_neg (by rw [hlast]; exact Bool.false_ne_true)]
    unfold renderQuestionIdx
    rw [if_neg (by rw [hnav]; exact Bool.false_ne_true)]

theorem skipCurrentQuestion_behavior_witness :
    (skipCurrentQuestion firstOfTwoState "2026-01-05T10:02:00.000Z").responses.getD 0 none =
      some (createResponsePayload 0 sampleQuestion "2026-01-05T10:02:00.000Z" none true
        (some "user")) ∧
    (skipCurrentQuestion firstOfTwoState "2026-01-05T10:02:00.000Z").index = 1 :=
  ⟨(skipCurrentQuestion_behavior firstOfTwoState _ sampleQuestion rfl rfl).1,
   (skipCurrentQuestion_behavior firstOfTwoState _ sampleQuestion rfl rfl).2.2.2.2
      (by decide) rfl⟩

theorem findFirstEmpty_of_all_isSome (l : List (Option Response))
    (h : ∀ r ∈ l, r.isSome = true) : findFirstEmpty l = none := by
  induction l with
  | nil => rfl
  | cons a t ih =>
    have ha : a.isSome = true := h a (by simp)
    have ht := ih (fun r hr => h r (by simp [hr]))
    unfold findFirstEmpty
    rw [if_neg (by simp [Option.isNone_iff_eq_none]; cases a <;> simp_all), ht]
    rfl

theorem findFirstEmpty_first (l : List (Option Response)) (j : Nat)
    (hj : l.getD j none = none) (hlt : j < l.length)
    (hbefore : ∀ k, k < j → (l.getD k none).isSome = true) :
    findFirstEmpty l = some j := by
  induction l generalizing j with
  | nil => exact absurd hlt (by simp)
  | cons a t ih =>
    cases j with
    | zero =>
      have : a = none := hj
      unfold findFirstEmpty
      rw [if_pos (by simp [this])]
    | succ k =>
      have ha : a.isSome = true := hbefore 0 (Nat.succ_pos k)
      have ht : findFirstEmpty t = some k :=
        ih k hj (Nat.lt_of_succ_lt_succ hlt)
          (fun m hm => hbefore (m + 1) (Nat.succ_lt_succ hm))
      unfold findFirstEmpty
      rw [if_neg (by cases a <;> simp_all), ht]
      rfl

/-- C4: the resume index prefers a validly recorded index (an integer
at least 0), clamped to the valid range `[0, L-1]`; when the recorded
index is absent or invalid it is the first question with an empty ledger
slot; and when every slot is non-empty it is the last question `L-1`. -/
theorem determineResumeIndex_policy (idx : JsVal)
    (responses : List (Option Response)) (total : Nat) :
    (∀ n : Int, idx = .num n → 0 ≤ n →
      determineResumeIndex idx responses total = min n.toNat (total - 1)) ∧
    (validResumeIdx idx = false →
      ((∀ j, responses.getD j none = none → j < responses.length →
          (∀ k, k < j → (responses.getD k none).isSome = true) →
          determineResumeIndex idx responses total = j) ∧
        ((∀ r ∈ responses, r.isSome = true) →
          determineResumeIndex idx responses total = total - 1))) := by
  constructor
  · intro n hn hpos
    subst hn
    simp only [determineResumeIndex]
    rw [if_pos hpos]
  · intro hinvalid
    constructor
    · intro j hj hlt hbefore
      have hfind := findFirstEmpty_first responses j hj hlt hbefore
      cases idx with
      | num n =>
        have hneg : ¬ (0 ≤ n) := by
          simp [validResumeIdx] at hinvalid
          omega
        simp only [determineResumeIndex, resumeFallback, hfind]
        rw [if_neg hneg]
      | str s => simp only [determineResumeIndex, resumeFallback, hfind]
      | undef => simp only [determineResumeIndex, resumeFallback, hfind]
    · intro hall
      have hfind := findFirstEmpty_of_all_isSome responses hall
      cases idx with
      | num n =>
        have hneg : ¬ (0 ≤ n) := by
          simp [validResumeIdx] at hinvalid
          omega
        simp only [determineResumeIndex, resumeFallback, hfind]
        rw [if_neg hneg]
      | str s => simp only [determineResumeIndex, resumeFallback, hfind]
      | undef => simp only [determineResumeIndex, resumeFallback, hfind]

theorem determineResumeIndex_policy_witness :
    determineResumeIndex (.num 5) [some sampleResponseA, none] 2 = 1 ∧
    determineResumeIndex (.str "oops") [some sampleResponseA, none] 2 = 1 ∧
    determineResumeIndex .undef [some sampleResponseA, some sampleResponseB] 2 = 1 :=
  ⟨(determineResumeIndex_policy (.num 5) [some sampleResponseA, none] 2).1 5 rfl
      (by decide),
   ((determineResumeIndex_policy (.str "oops") [some sampleResponseA, none] 2).2 rfl).1 1
      rfl (by decide)
      (fun k hk => by
        have hk0 : k = 0 := by omega
        rw [hk0]
        rfl),
   ((determineResumeIndex_policy .undef [some sampleResponseA, some sampleResponseB] 2).2
      rfl).2
      (fun r hr => by fin_cases hr <;> rfl)⟩

theorem getSessionRecord_storeSet (store : Store) (key : String) (record : SessionRecord) :
    getSessionRecord (storeSet store key record) key = some record := by
  simp [getSessionRecord, storeSet, List.lookup]

theorem jsOrZero_num (n : Int) : jsOrZero (.num n) = .num n := by
  by_cases h : n = 0
  · subst h
    rfl
  · simp [jsOrZero, jsTruthy, h]

theorem alignResponses_self (rs : List (Option Response)) :
    alignResponses rs rs.length = rs := by
  apply List.ext_getElem
  · simp [alignResponses]
  · intro i h1 h2
    simp only [alignResponses, List.getElem_map, List.getElem_range]
    exact List.getD_eq_getElem rs none h2

/-- C3: persisting the current session and resuming with any participant
name that normalizes to the same key (e.g. "Alice " vs "alice") finds
exactly the record that was persisted, and — once the same dataset is
loaded back — restores a Response Ledger and a resume index identical to
the persisted ones.  The hypotheses say that the working index was in
range and that the dataset file still has one question per ledger slot,
both invariants of every reachable state. -/
theorem session_resume_roundtrip (s : StudyState) (store : Store) (now name key : String)
    (w : RestoredWorking) (initialQuestionSet : Option String) (payload : List Question)
    (hkey : s.sessionKey = some key)
    (hname : getNameKey name = key)
    (hlen : payload.length = s.responses.length)
    (hidx : s.index < s.responses.length) :
    ∃ record,
      getSessionRecord (persistSession s store now) (getNameKey name) = some record ∧
      record.responses = s.responses ∧
      loadQuestionsApply (applyStoredSession initialQuestionSet w record) payload =
        (s.responses, s.index) := by
  rw [hname]
  refine ⟨{ questionSet := s.questionSet, responses := s.responses, index := .num s.index,
            participantName := s.participantName, updatedAt := now }, ?_, rfl, ?_⟩
  · unfold persistSession
    rw [hkey]
    exact getSessionRecord_storeSet store key _
  · unfold loadQuestionsApply applyStoredSession
    simp only [jsOrZero_num]
    rw [hlen, alignResponses_self]
    have hresume : determineResumeIndex (.num s.index) s.responses s.responses.length = s.index := by
      simp only [determineResumeIndex]
      rw [if_pos (by positivity)]
      rw [Int.toNat_natCast]
      have : s.index ≤ s.responses.length - 1 := by omega
      exact Nat.min_eq_left this
    rw [hresume]

/-- A concrete mid-study state for participant "Alice", one question
answered out of two, currently on the second question. -/
def aliceState : StudyState :=
  { questions := [sampleQuestion, sampleQuestion2], index := 1,
    responses := [some sampleResponseA, none], questionSet := some "packA",
    loadedQuestionSet := some "packA", sessionKey := some "alice",
    participantName := "Alice", submissionMode := "local",
    isPreview := false, isNavigating := false }

/-- A freshly reset working slice (what `resetProgressForNewParticipant`
leaves behind before a stored session is applied). -/
def freshWorking : RestoredWorking :=
  { questionSet := none, responses := [], indexVal := .num 0, participantName := "" }

theorem session_resume_roundtrip_witness :
    ∃ record,
      getSessionRecord (persistSession aliceState [] "2026-01-05T10:03:00.000Z")
          (getNameKey "Alice ") = some record ∧
      record.responses = aliceState.responses ∧
      loadQuestionsApply (applyStoredSession none freshWorking record)
          [sampleQuestion, sampleQuestion2] =
        (aliceState.responses, 1) :=
  session_resume_roundtrip aliceState [] "2026-01-05T10:03:00.000Z" "Alice " "alice"
    freshWorking none [sampleQuestion, sampleQuestion2] rfl (by decide) rfl (by decide)

/-- Whether a character list ends in a non-alphanumeric character. -/
def tailJunk : List Char → Bool
  | [] => false
  | [c] => !isSlugChar c
  | _ :: c :: cs => tailJunk (c :: cs)

theorem slugChar_ne_sep {c : Char} (h : isSlugChar c = true) : c ≠ '_' := by
  intro he
  subst he
  exact absurd h (by decide)

theorem collapseRuns_false_eq (cs : List Char) :
    collapseRuns false cs =
      (match cs with
        | [] => ([] : List Char)
        | c :: _ => if isSlugChar c then [] else ['_']) ++ collapseRuns true cs := by
  cases cs with
  | nil => rfl
  | cons c rest =>
    by_cases h : isSlugChar c
    · simp [collapseRuns, h]
    · simp [collapseRuns, h]

theorem slugWords_cons_ok {c : Char} (h : isSlugChar c = true) (cs : List Char) :
    ∃ t r, slugWords (c :: cs) = (c :: t) :: r := by
  cases cs with
  | nil => exact ⟨[], [], by simp [slugWords, h]⟩
  | cons c' rest =>
    by_cases h' : isSlugChar c'
    · exact ⟨(slugWords (c' :: rest)).headD [], (slugWords (c' :: rest)).tail,
        by simp [slugWords, h, h']⟩
    · exact ⟨[], slugWords (c' :: rest), by simp [slugWords, h, h']⟩

theorem slugWords_words_ok (cs : List Char) :
    ∀ w ∈ slugWords cs, w ≠ [] ∧ ∀ ch ∈ w, isSlugChar ch = true := by
  induction cs with
  | nil => intro w hw; exact absurd hw (by simp [slugWords])
  | cons c rest ih =>
    by_cases hc : isSlugChar c
    · cases rest with
      | nil =>
        intro w hw
        simp [slugWords, hc] at hw
        subst hw
        exact ⟨by simp, fun ch hch => by simp at hch; subst hch; exact hc⟩
      | cons c' r =>
        by_cases hc' : isSlugChar c'
        · obtain ⟨t, rr, hws⟩ := slugWords_cons_ok hc' r
          intro w hw
          rw [show slugWords (c :: c' :: r) =
              (c :: (slugWords (c' :: r)).headD []) :: (slugWords (c' :: r)).tail from
            by simp [slugWords, hc, hc'], hws] at hw
          simp only [List.headD_cons, List.tail_cons] at hw
          rcases List.mem_cons.mp hw with hw1 | hw2
          · subst hw1
            have hmem : (c' :: t) ∈ slugWords (c' :: r) := by rw [hws]; simp
            obtain ⟨-, hall⟩ := ih _ hmem
            refine ⟨by simp, fun ch hch => ?_⟩
            rcases List.mem_cons.mp hch with h1 | h2
            · subst h1; exact hc
            · exact hall ch (by simp [h2])
          · exact ih w (by rw [hws]; simp [hw2])
        · intro w hw
          rw [show slugWords (c :: c' :: r) = [c] :: slugWords (c' :: r) from
            by simp [slugWords, hc, hc']] at hw
          rcases List.mem_cons.mp hw with hw1 | hw2
          · subst hw1
            exact ⟨by simp, fun ch hch => by simp at hch; subst hch; exact hc⟩
          · exact ih w hw2
    · intro w hw
      rw [show slugWords (c :: rest) = slugWords rest from by
        cases rest <;> simp [slugWords, hc]] at hw
      exact ih w hw

theorem slugWords_nil_all_junk (cs : List Char) (h : slugWords cs = []) :
    ∀ c ∈ cs, isSlugChar c = false := by
  induction cs with
  | nil => intro c hc; exact absurd hc (by simp)
  | cons c rest ih =>
    by_cases hc : isSlugChar c
    · exfalso
      obtain ⟨t, r, hws⟩ := slugWords_cons_ok hc rest
      rw [hws] at h
      exact absurd h (by simp)
    · intro x hx
      have hrest : slugWords rest = [] := by
        rw [show slugWords (c :: rest) = slugWords rest from by
          cases rest <;> simp [slugWords, hc]] at h
        exact h
      rcases List.mem_cons.mp hx with h1 | h2
      · subst h1; simpa using hc
      · exact ih hrest x h2

theorem tailJunk_of_all_junk (cs : List Char) (hne : cs ≠ [])
    (h : ∀ c ∈ cs, isSlugChar c = false) : tailJunk cs = true := by
  induction cs with
  | nil => exact absurd rfl hne
  | cons c rest ih =>
    cases rest with
    | nil =>
      simp only [tailJunk]
      rw [h c (by simp)]
      rfl
    | cons c' r =>
      simp only [tailJunk]
      exact ih (by simp) (fun x hx => h x (by simp [List.mem_cons.mp hx]))

theorem intercalate_sep_cons₂ (w y : List Char) (t : List (List Char)) :
    List.intercalate ['_'] (w :: y :: t) = w ++ '_' :: List.intercalate ['_'] (y :: t) := by
  simp [List.intercalate, List.intersperse]

theorem intercalate_sep_cons_head (c : Char) (w : List Char) (t : List (List Char)) :
    List.intercalate ['_'] ((c :: w) :: t) = c :: List.intercalate ['_'] (w :: t) := by
  cases t with
  | nil => simp [List.intercalate]
  | cons y r =>
    rw [intercalate_sep_cons₂, intercalate_sep_cons₂]
    simp

theorem collapseRuns_true_eq (cs : List Char) :
    collapseRuns true cs =
      List.intercalate ['_'] (slugWords cs) ++
        (if slugWords cs ≠ [] ∧ tailJunk cs = true then ['_'] else []) := by
  induction cs with
  | nil => simp [collapseRuns, slugWords, tailJunk, List.intercalate]
  | cons c rest ih =>
    by_cases hc : isSlugChar c
    · cases rest with
      | nil =>
        simp [collapseRuns, slugWords, tailJunk, hc, List.intercalate]
      | cons c' r =>
        by_cases hc' : isSlugChar c'
        · obtain ⟨t, rr, hws⟩ := slugWords_cons_ok hc' r
          have hlhs : collapseRuns true (c :: c' :: r) = c :: collapseRuns true (c' :: r) := by
            simp only [collapseRuns, hc, if_true]
            rw [collapseRuns_false_eq]
            simp [hc']
          rw [hlhs, ih]
          have hrhs : slugWords (c :: c' :: r) = (c :: c' :: t) :: rr := by
            rw [show slugWords (c :: c' :: r) =
                (c :: (slugWords (c' :: r)).headD []) :: (slugWords (c' :: r)).tail from
              by simp [slugWords, hc, hc']]
            rw [hws]
            simp
          rw [hrhs, hws]
          rw [intercalate_sep_cons_head, intercalate_sep_cons_head]
          have htail : tailJunk (c :: c' :: r) = tailJunk (c' :: r) := rfl
          rw [htail]
          simp only [List.cons_append]
          rw [intercalate_sep_cons_head]
          simp
        · have hlhs : collapseRuns true (c :: c' :: r) =
              c :: '_' :: collapseRuns true (c' :: r) := by
            simp only [collapseRuns, hc, if_true]
            rw [collapseRuns_false_eq]
            simp [hc']
          rw [hlhs, ih]
          have hrhs : slugWords (c :: c' :: r) = [c] :: slugWords (c' :: r) := by
            simp [slugWords, hc, hc']
          rw [hrhs]
          have htail : tailJunk (c :: c' :: r) = tailJunk (c' :: r) := rfl
          rw [htail]
          rcases hws : slugWords (c' :: r) with _ | ⟨w1, t1⟩
          · have halljunk : ∀ x ∈ (c' :: r), isSlugChar x = false :=
              slugWords_nil_all_junk _ hws
            have htj : tailJunk (c' :: r) = true :=
              tailJunk_of_all_junk _ (by simp) halljunk
            simp [htj, List.intercalate]
          · rw [intercalate_sep_cons₂]
            simp
    · have hlhs : collapseRuns true (c :: rest) = collapseRuns true rest := by
        simp [collapseRuns, hc]
      have hws : slugWords (c :: rest) = slugWords rest := by
        cases rest <;> simp [slugWords, hc]
      rw [hlhs, ih, hws]
      cases rest with
      | nil => simp [slugWords, List.intercalate]
      | cons x r =>
        have htail : tailJunk (c :: x :: r) = tailJunk (x :: r) := rfl
        rw [htail]

theorem head?_reverse_eq_getLast? (l : List Char) : l.reverse.head? = l.getLast? := by
  induction l with
  | nil => rfl
  | cons a t ih =>
    rcases ht : t.reverse with _ | ⟨b, z⟩
    · have : t = [] := by simpa using congrArg List.reverse ht
      subst this
      rfl
    · have htne : t ≠ [] := by
        intro h
        subst h
        exact absurd ht (by simp)
      have h1 : (a :: t).reverse = b :: (z ++ [a]) := by
        rw [List.reverse_cons, ht]
        simp
      have h2 : List.getLast? (a :: t) = List.getLast? t :=
        List.getLast?_append_of_ne_nil [a] htne
      rw [h1, h2, ← ih, ht]
      rfl

theorem getLast?_ok_list (l : List Char) (hne : l ≠ [])
    (h : ∀ ch ∈ l, isSlugChar ch = true) :
    ∃ ch, l.getLast? = some ch ∧ isSlugChar ch = true :=
  ⟨l.getLast hne, List.getLast?_eq_getLast_of_ne_nil hne, h _ (List.getLast_mem hne)⟩

theorem getLast?_intercalate_ok (ws : List (List Char)) (hne : ws ≠ [])
    (hok : ∀ w ∈ ws, w ≠ [] ∧ ∀ ch ∈ w, isSlugChar ch = true) :
    ∃ ch, (List.intercalate ['_'] ws).getLast? = some ch ∧ isSlugChar ch = true := by
  induction ws with
  | nil => exact absurd rfl hne
  | cons w t ih =>
    cases t with
    | nil =>
      have hw := hok w (by simp)
      rw [show List.intercalate ['_'] [w] = w from by simp [List.intercalate]]
      exact getLast?_ok_list w hw.1 hw.2
    | cons y r =>
      obtain ⟨ch, hch, hchok⟩ := ih (by simp) (fun v hv => hok v (by simp [hv]))
      have hIne : List.intercalate ['_'] (y :: r) ≠ [] := by
        intro hnil
        rw [hnil] at hch
        exact absurd hch (by simp)
      refine ⟨ch, ?_, hchok⟩
      rw [intercalate_sep_cons₂]
      rw [List.getLast?_append_cons]
      calc List.getLast? ('_' :: List.intercalate ['_'] (y :: r))
          = List.getLast? (['_'] ++ List.intercalate ['_'] (y :: r)) := rfl
        _ = List.getLast? (List.intercalate ['_'] (y :: r)) :=
            List.getLast?_append_of_ne_nil ['_'] hIne
        _ = some ch := hch

theorem dropWhile_sep_of_head_ok {c : Char} (h : isSlugChar c = true) (l : List Char) :
    List.dropWhile (fun x => x == '_') (c :: l) = c :: l := by
  rw [List.dropWhile_cons]
  have : (c == '_') = false := by
    have := slugChar_ne_sep h
    simp [this]
  rw [this]
  simp

theorem trimSep_wrap (intro mid outro : List Char)
    (hintro : intro = [] ∨ intro = ['_'])
    (houtro : outro = [] ∨ outro = ['_'])
    (hhead : ∃ ch l, mid = ch :: l ∧ isSlugChar ch = true)
    (hlast : ∃ ch, mid.getLast? = some ch ∧ isSlugChar ch = true) :
    trimSep (intro ++ mid ++ outro) = mid := by
  obtain ⟨ch, l, hm, hok⟩ := hhead
  obtain ⟨cl, hcl, hclok⟩ := hlast
  have step1 : List.dropWhile (fun x => x == '_') (intro ++ mid ++ outro) = mid ++ outro := by
    rcases hintro with h | h
    · subst h
      rw [List.nil_append, hm, List.cons_append, dropWhile_sep_of_head_ok hok]
    · subst h
      rw [show (['_'] ++ mid ++ outro : List Char) = '_' :: (mid ++ outro) from by simp]
      rw [List.dropWhile_cons]
      simp only [beq_self_eq_true, if_true]
      rw [hm, List.cons_append, dropWhile_sep_of_head_ok hok, ← List.cons_append, ← hm]
  have hmidne : mid ≠ [] := by rw [hm]; simp
  have step2 : List.dropWhile (fun x => x == '_') (mid ++ outro).reverse = mid.reverse := by
    have hrev : (mid ++ outro).reverse = outro.reverse ++ mid.reverse := by simp
    have hheadrev : mid.reverse.head? = some cl := by rw [head?_reverse_eq_getLast?]; exact hcl
    rcases hrevm : mid.reverse with _ | ⟨a, z⟩
    · exact absurd (by simpa using congrArg List.reverse hrevm) hmidne
    · have ha : a = cl := by
        rw [hrevm] at hheadrev
        simpa using hheadrev
      subst ha
      have hstop : List.dropWhile (fun x => x == '_') (a :: z) = a :: z :=
        dropWhile_sep_of_head_ok hclok z
      rcases houtro with h | h
      · subst h
        rw [List.append_nil, hrevm, hstop]
      · subst h
        rw [show ((mid ++ ['_']).reverse : List Char) = '_' :: mid.reverse from by simp]
        rw [List.dropWhile_cons]
        simp only [beq_self_eq_true, if_true]
        rw [hrevm, hstop]
  unfold trimSep
  rw [step1, step2, List.reverse_reverse]

theorem trimSep_collapse_eq_intercalate (cs : List Char) :
    trimSep (collapseRuns false cs) = List.intercalate ['_'] (slugWords cs) := by
  rw [collapseRuns_false_eq, collapseRuns_true_eq]
  rcases hws : slugWords cs with _ | ⟨w, t⟩
  · simp only [hws, ne_eq, not_true_eq_false, false_and, if_false]
    rw [show List.intercalate ['_'] ([] : List (List Char)) = [] from by
      simp [List.intercalate]]
    cases cs with
    | nil => rfl
    | cons c r =>
      have hc : isSlugChar c = false := by
        by_contra hcc
        have hc' : isSlugChar c = true := by
          revert hcc; cases isSlugChar c <;> simp
        obtain ⟨t', r', hne⟩ := slugWords_cons_ok hc' r
        rw [hws] at hne
        exact absurd hne (by simp)
      rw [show (match (c :: r : List Char) with
          | [] => ([] : List Char)
          | c :: _ => if isSlugChar c then [] else ['_']) = ['_'] from by simp [hc]]
      rfl
  · have hok := slugWords_words_ok cs
    rw [hws] at hok
    have hwok := hok w (by simp)
    rcases hwhd : w with _ | ⟨ch, l⟩
    · exact absurd hwhd hwok.1
    · rw [← List.append_assoc]
      apply trimSep_wrap
      · cases cs with
        | nil => exact Or.inl rfl
        | cons c r =>
          by_cases hc : isSlugChar c
          · exact Or.inl (by simp [hc])
          · exact Or.inr (by simp [hc])
      · by_cases htj : tailJunk cs = true
        · exact Or.inr (by rw [if_pos ⟨by simp, htj⟩])
        · exact Or.inl (by rw [if_neg (fun hc => htj hc.2)])
      · exact ⟨ch, List.intercalate ['_'] (l :: t), intercalate_sep_cons_head ch l t,
          (hwhd ▸ hwok.2) ch (by simp)⟩
      · exact getLast?_intercalate_ok ((ch :: l) :: t) (by simp) (hwhd ▸ hok)

/-- C9: for every participant name the download filename is
`responses_<slug>.json`, where the slug joins the alphanumeric runs of
the lower-cased name with single separators — i.e. collapses every run
of non-alphanumeric characters to one separator and trims leading and
trailing separators — replacing an empty result with the fixed default
"participant". -/
theorem downloadFilename_spec (name : String) :
    downloadFilename name = "responses_" ++ slugSpec name ++ ".json" ∧
    downloadFilename "  Alice B. Cooper!  " = "responses_alice_b_cooper.json" := by
  constructor
  · have hcore :
        String.mk (trimSep (collapseRuns false
            (jsToLower (if name = "" then "participant" else name)).data)) =
          String.mk (List.intercalate ['_'] (slugWords
            (jsToLower (if name = "" then "participant" else name)).data)) :=
      congrArg String.mk (trimSep_collapse_eq_intercalate _)
    simp only [downloadFilename, slugSpec, nameSlug]
    rw [hcore]
  · decide
